import Mathlib

/-!
Shallow embedding of the YouTube VSL analysis workflow
(`src/mastra/workflows/vsl-workflow.ts`): a four-step pipeline that
downloads the best audio-only stream of a video, transcribes it,
extracts a structured VSL (video sales letter) script constrained by a
zod schema, and persists the analysis with derived statistics.

External collaborators (the streaming provider, the speech-recognition
provider, the generative model, the file system) are modelled as
explicit parameters / explicit state, and each step records whether it
actually invoked its external provider as a Boolean flag.
-/

set_option linter.unusedVariables false

namespace VslWorkflow

/-! ## Path helpers (node:path as used by the workflow) -/

/-- `path.join(dir, file)` for the fixed directory arguments used in the
workflow: node normalizes away a leading `./` and inserts a single
separator. -/
def pathJoin (dir file : String) : String :=
  let d := if dir.startsWith "./" then dir.drop 2 else dir
  if d.endsWith "/" then d ++ file else d ++ "/" ++ file

/-- Last `/`-separated component of a path (the basename including its
extension). -/
def lastComponent (s : String) : String :=
  (s.splitOn "/").getLastD ""

/-- `path.extname`: the substring of the basename from its last dot, and
`""` when the basename has no dot or only a leading dot. -/
def extname (s : String) : String :=
  let base := lastComponent s
  match base.toList.reverse.findIdx? (· = '.') with
  | none => ""
  | some r =>
    let i := base.length - 1 - r
    if i = 0 then "" else base.drop i

/-- `path.basename(p, ext)`: the last component of `p`, with the suffix
`ext` stripped when it is a proper non-empty suffix. -/
def basename (p ext : String) : String :=
  let base := lastComponent p
  if ext ≠ "" && ext ≠ base && base.endsWith ext then
    base.dropRight ext.length
  else base

/-! ## Title sanitization (`downloadVideo`) -/

/-- A character matched by the JS regex class `\w`: `[A-Za-z0-9_]`. -/
def isWordChar (c : Char) : Bool :=
  c.isAlpha || c.isDigit || c = '_'

/-- A character matched by the JS regex class `\s` (the whitespace the
workflow can meet in video titles). -/
def isSpaceChar (c : Char) : Bool :=
  c = ' ' || c = '\t' || c = '\n' || c = '\r'

/-- `.replace(/\s+/g, "_")`: each maximal run of whitespace becomes one
underscore. The Boolean argument records whether the previous character
was whitespace. -/
def collapseWsAux : Bool → List Char → List Char
  | _, [] => []
  | prevSpace, c :: rest =>
    if isSpaceChar c then
      if prevSpace then collapseWsAux true rest
      else '_' :: collapseWsAux true rest
    else c :: collapseWsAux false rest

/-- `title.replace(/[^\w\s-]/g, "").replace(/\s+/g, "_")`. -/
def sanitizeTitle (t : String) : String :=
  let kept := t.toList.filter (fun c => isWordChar c || isSpaceChar c || c = '-')
  String.mk (collapseWsAux false kept)

/-- JS `String.prototype.trim`: strip whitespace from both ends. -/
def jsTrim (s : String) : String :=
  String.mk (((s.toList.dropWhile isSpaceChar).reverse.dropWhile isSpaceChar).reverse)

/-! ## Error taxonomy

One constructor per distinct `throw` site of the workflow. -/

inductive PipelineError where
  /-- "No audio-only formats available" -/
  | noAudioAvailable
  /-- "Video file name is required for transcription" -/
  | missingInputFile
  /-- "No transcription results found" -/
  | transcriptionProviderError
  /-- "Transcription failed or returned empty transcript for video ⟨id⟩" -/
  | emptyTranscript (videoId : String)
  /-- `generateObject` rejected a response that violates the zod schema -/
  | schemaValidationError
  deriving Repr, DecidableEq

/-! ## Streaming-provider data (`@distube/ytdl-core`) -/

/-- One encoding as reported by the streaming provider; `audioBitrate`
and `container` are absent in some encodings. -/
structure VideoFormat where
  hasAudio : Bool
  hasVideo : Bool
  audioBitrate : Option Nat
  container : Option String
  deriving Repr, DecidableEq

/-- The provider's response to `ytdl.getInfo`: the video title and the
list of encodings, in the provider's order. -/
structure VideoInfo where
  title : String
  formats : List VideoFormat
  deriving Repr, DecidableEq

/-- `format.audioBitrate || 0`: a missing bitrate counts as `0`. -/
def effBitrate (f : VideoFormat) : Nat :=
  f.audioBitrate.getD 0

/-! ## Stable descending sort

`Array.prototype.sort` in node is stable; the workflow sorts by a
numeric key descending (`(b.key || 0) - (a.key || 0)`), so equal keys
keep their original relative order. -/

/-- Insert `x` into an already descending list, before the first element
whose key is not larger, so that among equal keys earlier-inserted
elements stay in front. -/
def insertDescBy (key : α → Nat) (x : α) : List α → List α
  | [] => [x]
  | y :: ys => if key y ≤ key x then x :: y :: ys else y :: insertDescBy key x ys

/-- Stable sort by a numeric key, descending. -/
def sortDescBy (key : α → Nat) (xs : List α) : List α :=
  xs.foldr (insertDescBy key) []

/-- Largest key present in the list (`0` for the empty list). -/
def maxKeyOf (key : α → Nat) (xs : List α) : Nat :=
  (xs.map key).foldr Nat.max 0

/-! ## Acquisition (`downloadVideo`, `downloadVideoStep`) -/

/-- The audio-only encodings, in provider order:
`info.formats.filter(f => f.hasAudio && !f.hasVideo)`. -/
def audioOnlyFormats (formats : List VideoFormat) : List VideoFormat :=
  formats.filter (fun f => f.hasAudio && !f.hasVideo)

/-- `audioFormats.sort((a, b) => (b.audioBitrate || 0) - (a.audioBitrate || 0))[0]`. -/
def bestAudioFormat (audioFormats : List VideoFormat) : Option VideoFormat :=
  (sortDescBy effBitrate audioFormats).head?

structure DownloadResult where
  videoFileName : String
  deriving Repr, DecidableEq

/-- `downloadVideo`: filter to audio-only encodings, fail when none
exist, pick the best one, and derive the output file path from the
sanitized title, the video id and the selected container. The byte
streaming itself is an external effect with no bearing on the returned
record. -/
def downloadVideo (videoId : String) (info : VideoInfo) :
    Except PipelineError DownloadResult :=
  let title := sanitizeTitle info.title
  let audioFormats := audioOnlyFormats info.formats
  if audioFormats.isEmpty then
    .error .noAudioAvailable
  else
    match bestAudioFormat audioFormats with
    | none => .error .noAudioAvailable
    | some best =>
      let container := best.container.getD "webm"
      let fileName := title ++ "_" ++ videoId ++ "." ++ container
      .ok ⟨pathJoin "./video/" fileName⟩

/-- The record the existence check may return for a previously processed
video (`videoRecord` is duck-typed in the source; only these two fields
are read). -/
structure VideoRecord where
  fullTranscript : Option String
  transcriptFileName : Option String
  deriving Repr, DecidableEq

/-- Input of `downloadVideoStep`. -/
structure DownloadInput where
  videoId : String
  «exists» : Bool
  videoRecord : Option VideoRecord
  keywords : Option (List String)
  deriving Repr, DecidableEq

/-- Output of `downloadVideoStep`, which is also the input of
`getTranscriptStep`. -/
structure DownloadOutput where
  videoFileName : Option String
  videoId : String
  «exists» : Bool
  videoRecord : Option VideoRecord
  keywords : Option (List String)
  deriving Repr, DecidableEq

/-- `downloadVideoStep.execute`. The Boolean records whether the
streaming provider was contacted: the `exists` short-circuit returns
before any network call. On the fresh path the source spreads only
`{videoFileName}` into the result, so `videoRecord` is not propagated. -/
def downloadVideoStepExec (input : DownloadInput) (info : VideoInfo) :
    Except PipelineError DownloadOutput × Bool :=
  if input.exists then
    (.ok { videoId := input.videoId
           «exists» := true
           videoRecord := input.videoRecord
           keywords := input.keywords
           videoFileName := none }, false)
  else
    match downloadVideo input.videoId info with
    | .error e => (.error e, true)
    | .ok r =>
      (.ok { videoFileName := some r.videoFileName
             videoId := input.videoId
             «exists» := false
             videoRecord := none
             keywords := input.keywords }, true)

/-! ## Transcription (`getTranscript`, `getTranscriptStep`)

The speech-recognition provider is modelled as its response: `none`
when no alternative came back (`result?.results?.channels[0]?.alternatives[0]`
missing), `some transcript` otherwise. -/

structure GetTranscriptResult where
  transcript : String
  transcriptFileName : String
  videoFileDeleted : Bool
  deriving Repr, DecidableEq

/-- `getTranscript`: submit the audio file, fail when the provider
returns no usable alternative, derive the transcript file path from the
audio file's base name, write the transcript there, and delete the
audio file. -/
def getTranscript (videoFileName : String) (providerResult : Option String) :
    Except PipelineError GetTranscriptResult :=
  match providerResult with
  | none => .error .transcriptionProviderError
  | some transcript =>
    let baseFileName := basename videoFileName (extname videoFileName)
    let transcriptFileName := pathJoin "./transcription/" (baseFileName ++ "_transcript.txt")
    .ok ⟨transcript, transcriptFileName, true⟩

/-- Output of `getTranscriptStep`, which is also the input of
`extractVSLStep`. -/
structure TranscriptOutput where
  transcript : String
  transcriptFileName : String
  videoFileDeleted : Bool
  videoId : String
  deriving Repr, DecidableEq

/-- The shared tail of `getTranscriptStep.execute`: the empty-transcript
check (`!transcript || transcript.trim().length === 0`) applied to the
candidate transcript of either path. `none` models a record without a
`fullTranscript` field (JS `undefined`, which is falsy like `""`). -/
def finishTranscript (videoId : String) (transcript : Option String)
    (transcriptFileName : String) (videoFileDeleted : Bool) :
    Except PipelineError TranscriptOutput :=
  match transcript with
  | none => .error (.emptyTranscript videoId)
  | some t =>
    if (jsTrim t).length = 0 then .error (.emptyTranscript videoId)
    else .ok ⟨t, transcriptFileName, videoFileDeleted, videoId⟩

/-- `getTranscriptStep.execute`. The Boolean records whether the
transcription provider was contacted. The cache path
(`inputData.exists && inputData.videoRecord`) reuses the record's
transcript and file name (`|| ""` when the latter is absent); the
fresh path requires a non-null `videoFileName` and calls the
provider. Both paths flow into the shared empty-transcript check. -/
def getTranscriptStepExec (input : DownloadOutput) (providerResult : Option String) :
    Except PipelineError TranscriptOutput × Bool :=
  match input.exists, input.videoRecord with
  | true, some record =>
    (finishTranscript input.videoId record.fullTranscript
      (record.transcriptFileName.getD "") true, false)
  | _, _ =>
    match input.videoFileName with
    | none => (.error .missingInputFile, false)
    | some videoFileName =>
      match getTranscript videoFileName providerResult with
      | .error e => (.error e, true)
      | .ok r =>
        (finishTranscript input.videoId (some r.transcript)
          r.transcriptFileName r.videoFileDeleted, true)

/-! ## Structured extraction (`vslSectionSchema`, `vslScriptSchema`,
`extractVSLStep`)

The generative model's response is modelled as a raw `VslScript` value;
`generateObject` validates it against the zod schema and throws when it
does not conform. `purpose` and `tone` are carried as strings, with
the closed enumerations enforced by the validator, exactly as zod
enforces them at the boundary. The rating is carried as a rational:
`z.number()` is an arbitrary (finite) number, not an integer type. -/

structure Timestamps where
  start : String
  «end» : String
  deriving Repr, DecidableEq

structure VslSection where
  title : String
  content : String
  purpose : String
  tone : String
  keyPoints : List String
  timestamps : Option Timestamps
  deriving Repr, DecidableEq

structure Effectiveness where
  strengths : List String
  improvements : List String
  overallRating : Rat
  deriving Repr, DecidableEq

structure VslScript where
  overallStrategy : String
  targetAudience : String
  mainOffer : String
  sections : List VslSection
  effectiveness : Effectiveness
  deriving Repr, DecidableEq

/-- The 11 values of the `purpose` enumeration in `vslSectionSchema`. -/
def purposeValues : List String :=
  ["hook", "problem_identification", "solution_introduction",
   "credibility_building", "social_proof", "objection_handling",
   "urgency_scarcity", "call_to_action", "bonus_offer", "guarantee",
   "summary_recap"]

/-- The 10 values of the `tone` enumeration in `vslSectionSchema`. -/
def toneValues : List String :=
  ["urgent", "empathetic", "authoritative", "conversational",
   "persuasive", "educational", "emotional", "logical", "testimonial",
   "reassuring"]

/-- `vslSectionSchema` on an already shape-correct section: the two
enumerations are the only constraints. -/
def validSection (s : VslSection) : Bool :=
  purposeValues.contains s.purpose && toneValues.contains s.tone

/-- `vslScriptSchema` on an already shape-correct script: every section
passes `vslSectionSchema` and `effectiveness.overallRating` satisfies
`z.number().min(1).max(10)`. -/
def validVslScript (v : VslScript) : Bool :=
  v.sections.all validSection
    && decide (1 ≤ v.effectiveness.overallRating)
    && decide (v.effectiveness.overallRating ≤ 10)

/-- Output of `extractVSLStep`, which is also the input of `saveVSLStep`. -/
structure ExtractOutput where
  transcript : String
  transcriptFileName : String
  videoFileDeleted : Bool
  videoId : String
  vslScript : VslScript
  deriving Repr, DecidableEq

/-- `extractVSLStep.execute`: invoke the generative model
(`generateObject` with `vslScriptSchema`); a schema-violating response
is rejected with an error, a conforming one is attached to the envelope
unchanged. -/
def extractVSLStepExec (input : TranscriptOutput) (modelResponse : VslScript) :
    Except PipelineError ExtractOutput :=
  if validVslScript modelResponse then
    .ok ⟨input.transcript, input.transcriptFileName, input.videoFileDeleted,
         input.videoId, modelResponse⟩
  else
    .error .schemaValidationError

/-! ## Persistence and summary (`saveVSLStep`) -/

/-- `acc[key] = (acc[key] || 0) + 1` on a JS object represented as an
association list in key-insertion order: an existing key is bumped in
place, a new key is appended at the end. -/
def bumpCount (acc : List (String × Nat)) (k : String) : List (String × Nat) :=
  match acc with
  | [] => [(k, 1)]
  | (k', c) :: rest =>
    if k' = k then (k', c + 1) :: rest else (k', c) :: bumpCount rest k

/-- `.reduce((acc, section) => { acc[key] = (acc[key] || 0) + 1; return acc }, {})`
over the list of keys drawn from the sections. -/
def breakdownOf (keys : List String) : List (String × Nat) :=
  keys.foldl bumpCount []

structure VslAnalysisMetadata where
  videoId : String
  analysisDate : String
  transcriptSource : String
  deriving Repr, DecidableEq

structure VslAnalysisStatistics where
  totalSections : Nat
  purposeBreakdown : List (String × Nat)
  toneBreakdown : List (String × Nat)
  deriving Repr, DecidableEq

/-- The persisted `vslAnalysis` object. -/
structure VslAnalysis where
  metadata : VslAnalysisMetadata
  vslScript : VslScript
  statistics : VslAnalysisStatistics
  deriving Repr, DecidableEq

/-- The analysis output directory, modelled as a map from file path to
written artifact. -/
abbrev AnalysisFS := List (String × VslAnalysis)

/-- `fs.writeFileSync`: replace the content at an existing path, create
the file otherwise. -/
def writeFile (fs : AnalysisFS) (p : String) (c : VslAnalysis) : AnalysisFS :=
  match fs with
  | [] => [(p, c)]
  | (p', c') :: rest =>
    if p' = p then (p', c) :: rest else (p', c') :: writeFile rest p c

/-- Look up the artifact stored at path `p`. -/
def readFile (fs : AnalysisFS) (p : String) : Option VslAnalysis :=
  match fs with
  | [] => none
  | (p', c) :: rest => if p' = p then some c else readFile rest p

/-- The analysis file path:
`path.join("./vsl-analysis/", videoId + "_vsl_analysis.json")`. -/
def vslAnalysisPath (videoId : String) : String :=
  pathJoin "./vsl-analysis/" (videoId ++ "_vsl_analysis.json")

/-- The comprehensive VSL analysis object built by `saveVSLStep`;
`now` stands for `new Date().toISOString()`. -/
def buildVslAnalysis (input : ExtractOutput) (now : String) : VslAnalysis :=
  { metadata := ⟨input.videoId, now, input.transcriptFileName⟩
    vslScript := input.vslScript
    statistics :=
      { totalSections := input.vslScript.sections.length
        purposeBreakdown := breakdownOf (input.vslScript.sections.map (·.purpose))
        toneBreakdown := breakdownOf (input.vslScript.sections.map (·.tone)) } }

structure Summary where
  totalSections : Nat
  mainPurposes : List String
  dominantTones : List String
  effectivenessRating : Rat
  deriving Repr, DecidableEq

structure SaveOutput where
  transcript : String
  vslScript : VslScript
  vslFileName : String
  summary : Summary
  deriving Repr, DecidableEq

/-- `Object.entries(toneBreakdown).sort(([, a], [, b]) => b - a).slice(0, 3).map(([tone]) => tone)`:
the top-3 tones by descending count; the sort is stable, so ties keep
key-insertion order, which is first-occurrence order. -/
def dominantTonesOf (toneBreakdown : List (String × Nat)) : List String :=
  ((sortDescBy Prod.snd toneBreakdown).take 3).map Prod.fst

/-- `saveVSLStep.execute`: build the analysis object, write it at the
path derived from the video id (overwriting any prior file), and derive
the summary read-model. -/
def saveVSLStepExec (input : ExtractOutput) (now : String) (fs : AnalysisFS) :
    AnalysisFS × SaveOutput :=
  let vslFileName := vslAnalysisPath input.videoId
  let vslAnalysis := buildVslAnalysis input now
  let fs' := writeFile fs vslFileName vslAnalysis
  let purposes := vslAnalysis.statistics.purposeBreakdown.map Prod.fst
  let tones := dominantTonesOf vslAnalysis.statistics.toneBreakdown
  (fs',
   { transcript := input.transcript
     vslScript := input.vslScript
     vslFileName := vslFileName
     summary :=
       { totalSections := input.vslScript.sections.length
         mainPurposes := purposes
         dominantTones := tones
         effectivenessRating := input.vslScript.effectiveness.overallRating } })

/-! ## Workflow composition

`.then(downloadVideoStep).then(getTranscriptStep).then(extractVSLStep).then(saveVSLStep)`:
strictly sequential, a failing step aborts the rest. The Booleans track
which external providers were actually invoked. -/

/-- `getTranscriptStep` followed by `extractVSLStep`: the second Boolean
records whether the generative model was invoked at all. -/
def transcribeAndExtract (input : DownloadOutput) (providerResult : Option String)
    (modelResponse : VslScript) :
    Except PipelineError ExtractOutput × Bool × Bool :=
  match getTranscriptStepExec input providerResult with
  | (.error e, dgCalled) => (.error e, dgCalled, false)
  | (.ok mid, dgCalled) => (extractVSLStepExec mid modelResponse, dgCalled, true)

/-- `downloadVideoStep` followed by `getTranscriptStep`: the first
Boolean records whether the streaming provider was invoked, the second
whether the transcription provider was. -/
def downloadAndTranscribe (input : DownloadInput) (info : VideoInfo)
    (providerResult : Option String) :
    Except PipelineError TranscriptOutput × Bool × Bool :=
  match downloadVideoStepExec input info with
  | (.error e, net) => (.error e, net, false)
  | (.ok mid, net) =>
    match getTranscriptStepExec mid providerResult with
    | (r, dgCalled) => (r, net, dgCalled)

/-! ## Concrete fixtures used by witnesses and counterexamples -/

/-- A schema-conformant model response whose rating is the non-integer
`7.5`: `z.number().min(1).max(10)` has no integrality constraint. -/
def scriptWithHalfRating : VslScript :=
  { overallStrategy := "direct response"
    targetAudience := "small business owners"
    mainOffer := "a course"
    sections := [⟨"Opening", "Watch this.", "hook", "urgent", ["attention"], none⟩]
    effectiveness := ⟨["clear"], ["longer proof"], 7.5⟩ }

/-- A schema-conformant model response with an integer rating. -/
def conformingScript : VslScript :=
  { overallStrategy := "problem agitate solve"
    targetAudience := "marketers"
    mainOffer := "a tool"
    sections :=
      [⟨"Opening", "Stop scrolling.", "hook", "urgent", ["attention"], none⟩,
       ⟨"Close", "Buy now.", "call_to_action", "persuasive", ["action"], none⟩]
    effectiveness := ⟨["punchy"], ["add proof"], 7⟩ }

/-- A transcription-stage input on the cache path whose prior record
holds a whitespace-only transcript. -/
def cachedWhitespaceInput : DownloadOutput :=
  { videoFileName := none
    videoId := "xyz789"
    «exists» := true
    videoRecord := some ⟨some "   ", some "transcription/old_transcript.txt"⟩
    keywords := none }

/-- A transcription-stage input on the cache path whose prior record
holds an empty transcript (used to exercise the empty-transcript guard). -/
def cachedEmptyInput : DownloadOutput :=
  { videoFileName := none
    videoId := "emptyvid"
    «exists» := true
    videoRecord := some ⟨some "", some "transcription/old_transcript.txt"⟩
    keywords := none }

/-- The Sections fixture of the spec's summary-derivation property:
purposes `[hook, hook, call_to_action]`, tones
`[urgent, urgent, reassuring]`. -/
def summaryExampleInput : ExtractOutput :=
  { transcript := "Hello world"
    transcriptFileName := "transcription/abc_transcript.txt"
    videoFileDeleted := true
    videoId := "abc123"
    vslScript :=
      { overallStrategy := "urgency"
        targetAudience := "buyers"
        mainOffer := "an offer"
        sections :=
          [⟨"s1", "c1", "hook", "urgent", [], none⟩,
           ⟨"s2", "c2", "hook", "urgent", [], none⟩,
           ⟨"s3", "c3", "call_to_action", "reassuring", [], none⟩]
        effectiveness := ⟨[], [], 7⟩ } }

/-- A one-section persistence input used to exercise the statistics
invariants at a concrete point. -/
def singleSectionInput : ExtractOutput :=
  { transcript := "short"
    transcriptFileName := "transcription/one_transcript.txt"
    videoFileDeleted := true
    videoId := "one"
    vslScript :=
      { overallStrategy := "s"
        targetAudience := "a"
        mainOffer := "o"
        sections := [⟨"t", "c", "hook", "urgent", [], none⟩]
        effectiveness := ⟨[], [], 5⟩ } }

/-- Provider metadata with no audio-only encoding. -/
def infoNoAudio : VideoInfo :=
  { title := "Video Only"
    formats := [⟨true, true, some 128, some "mp4"⟩, ⟨false, true, none, some "mp4"⟩] }

/-- Provider metadata with a bitrate tie among audio-only encodings and
an encoding with a missing bitrate. -/
def infoWithTie : VideoInfo :=
  { title := "My Video!"
    formats :=
      [⟨true, true, some 999, some "mp4"⟩,
       ⟨true, false, none, some "webm"⟩,
       ⟨true, false, some 160, some "webm"⟩,
       ⟨true, false, some 160, some "m4a"⟩,
       ⟨true, false, some 128, some "webm"⟩] }

/-! ## Helper lemmas -/

theorem insertDescBy_ne_nil (key : α → Nat) (x : α) (l : List α) :
    insertDescBy key x l ≠ [] := by
  cases l with
  | nil => simp [insertDescBy]
  | cons y ys =>
    simp only [insertDescBy]
    split <;> simp

theorem sortDescBy_eq_nil (key : α → Nat) {xs : List α}
    (h : sortDescBy key xs = []) : xs = [] := by
  cases xs with
  | nil => rfl
  | cons x xs => exact absurd h (insertDescBy_ne_nil key x _)

theorem maxKeyOf_cons (key : α → Nat) (x : α) (xs : List α) :
    maxKeyOf key (x :: xs) = Nat.max (key x) (maxKeyOf key xs) := rfl

/-- The head of the stable descending sort is the first element of the
original list that attains the maximal key: highest key wins, ties go
to the earliest-encountered element. -/
theorem sortDescBy_head?_eq_find?_max (key : α → Nat) (xs : List α) :
    (sortDescBy key xs).head? = xs.find? (fun y => key y == maxKeyOf key xs) := by
  induction xs with
  | nil => rfl
  | cons x xs ih =>
    have hsort : sortDescBy key (x :: xs) = insertDescBy key x (sortDescBy key xs) := rfl
    cases h : sortDescBy key xs with
    | nil =>
      have hx : xs = [] := sortDescBy_eq_nil key h
      subst hx
      simp [hsort, insertDescBy, maxKeyOf]
    | cons z zs =>
      have hz : xs.find? (fun y => key y == maxKeyOf key xs) = some z := by
        rw [← ih, h]; rfl
      have hzmax : key z = maxKeyOf key xs := by
        have := List.find?_some hz
        simpa using this
      rw [hsort, h]
      by_cases hle : key z ≤ key x
      · have hmax : maxKeyOf key (x :: xs) = key x := by
          rw [maxKeyOf_cons]
          exact Nat.max_eq_left (hzmax ▸ hle)
        simp [insertDescBy, hle, hmax, List.find?_cons]
      · have hlt : key x < key z := Nat.lt_of_not_le hle
        have hmax : maxKeyOf key (x :: xs) = maxKeyOf key xs := by
          rw [maxKeyOf_cons]
          exact Nat.max_eq_right (hzmax ▸ Nat.le_of_lt hlt)
        have hpx : (key x == maxKeyOf key xs) = false := by
          rw [← hzmax]
          simpa using Nat.ne_of_lt hlt
        simp only [insertDescBy, if_neg hle, List.head?_cons, List.find?_cons, hpx, hmax, hz]

/-- `finishTranscript` only succeeds on a transcript that is non-empty
after trimming. -/
theorem finishTranscript_ok {videoId : String} {tr : Option String}
    {tf : String} {d : Bool} {out : TranscriptOutput}
    (h : finishTranscript videoId tr tf d = .ok out) :
    0 < (jsTrim out.transcript).length := by
  unfold finishTranscript at h
  cases tr with
  | none => simp at h
  | some t =>
    by_cases ht : (jsTrim t).length = 0
    · simp [ht] at h
    · simp [ht] at h
      subst h
      exact Nat.pos_of_ne_zero ht

theorem bumpCount_map_snd_sum (acc : List (String × Nat)) (k : String) :
    ((bumpCount acc k).map Prod.snd).sum = (acc.map Prod.snd).sum + 1 := by
  induction acc with
  | nil => simp [bumpCount]
  | cons hd tl ih =>
    obtain ⟨k', c⟩ := hd
    by_cases h : k' = k <;> simp [bumpCount, h, ih] <;> omega

theorem foldl_bumpCount_sum (ks : List String) :
    ∀ acc : List (String × Nat),
      ((ks.foldl bumpCount acc).map Prod.snd).sum = (acc.map Prod.snd).sum + ks.length := by
  induction ks with
  | nil => simp
  | cons k ks ih =>
    intro acc
    rw [List.foldl_cons, ih, bumpCount_map_snd_sum]
    simp
    omega

theorem breakdownOf_sum (ks : List String) :
    ((breakdownOf ks).map Prod.snd).sum = ks.length := by
  simpa using foldl_bumpCount_sum ks []

theorem mem_keys_bumpCount (acc : List (String × Nat)) (k' k : String) :
    k ∈ (bumpCount acc k').map Prod.fst ↔ k ∈ acc.map Prod.fst ∨ k = k' := by
  induction acc with
  | nil => simp [bumpCount]
  | cons hd tl ih =>
    obtain ⟨a, c⟩ := hd
    by_cases h : a = k' <;> simp [bumpCount, h, ih] <;> tauto

theorem mem_keys_foldl_bumpCount (ks : List String) :
    ∀ (acc : List (String × Nat)) (k : String),
      k ∈ (ks.foldl bumpCount acc).map Prod.fst ↔ k ∈ acc.map Prod.fst ∨ k ∈ ks := by
  induction ks with
  | nil => simp
  | cons k0 ks ih =>
    intro acc k
    rw [List.foldl_cons, ih, mem_keys_bumpCount]
    simp
    tauto

theorem mem_keys_breakdownOf (ks : List String) (k : String) :
    k ∈ (breakdownOf ks).map Prod.fst ↔ k ∈ ks := by
  simpa using mem_keys_foldl_bumpCount ks [] k

theorem bumpCount_pos (acc : List (String × Nat)) (k : String)
    (h : ∀ kc ∈ acc, 0 < kc.2) : ∀ kc ∈ bumpCount acc k, 0 < kc.2 := by
  induction acc with
  | nil => simp [bumpCount]
  | cons hd tl ih =>
    obtain ⟨a, c⟩ := hd
    intro kc hkc
    by_cases ha : a = k
    · simp [bumpCount, ha] at hkc
      rcases hkc with h1 | h1
      · subst h1; simp
      · exact h kc (by simp [h1])
    · simp [bumpCount, ha] at hkc
      rcases hkc with h1 | h1
      · subst h1; exact h (a, c) (by simp)
      · exact ih (fun kc hkc => h kc (by simp [hkc])) kc h1

theorem foldl_bumpCount_pos (ks : List String) :
    ∀ acc : List (String × Nat), (∀ kc ∈ acc, 0 < kc.2) →
      ∀ kc ∈ ks.foldl bumpCount acc, 0 < kc.2 := by
  induction ks with
  | nil => intro acc h; simpa using h
  | cons k ks ih =>
    intro acc h kc hkc
    rw [List.foldl_cons] at hkc
    exact ih (bumpCount acc k) (bumpCount_pos acc k h) kc hkc

theorem breakdownOf_pos (ks : List String) :
    ∀ kc ∈ breakdownOf ks, 0 < kc.2 :=
  foldl_bumpCount_pos ks [] (by simp)

theorem writeFile_writeFile (fs : AnalysisFS) (p : String) (c1 c2 : VslAnalysis) :
    writeFile (writeFile fs p c1) p c2 = writeFile fs p c2 := by
  induction fs with
  | nil => simp [writeFile]
  | cons hd tl ih =>
    obtain ⟨p', c'⟩ := hd
    by_cases h : p' = p <;> simp [writeFile, h, ih]

theorem readFile_writeFile (fs : AnalysisFS) (p : String) (c : VslAnalysis) :
    readFile (writeFile fs p c) p = some c := by
  induction fs with
  | nil => simp [writeFile, readFile]
  | cons hd tl ih =>
    obtain ⟨p', c'⟩ := hd
    by_cases h : p' = p <;> simp [writeFile, readFile, h, ih]

theorem writeFile_of_readFile_none (fs : AnalysisFS) (p : String) (c : VslAnalysis)
    (h : readFile fs p = none) : writeFile fs p c = fs ++ [(p, c)] := by
  induction fs with
  | nil => simp [writeFile]
  | cons hd tl ih =>
    obtain ⟨p', c'⟩ := hd
    by_cases hp : p' = p
    · simp [readFile, hp] at h
    · simp [readFile, hp] at h
      simp [writeFile, hp, ih h]

/-! ## Claim theorems -/

/-- C3: for every input with `exists = true`, the Acquisition Stage
returns `videoFileName = null` with `videoId`, `exists`, `videoRecord`
and `keywords` unchanged, and never contacts the streaming provider
(the result is the same for every provider response and the
network-call flag is `false`). -/
theorem downloadVideoStep_skips_when_exists (input : DownloadInput) (info : VideoInfo)
    (h : input.exists = true) :
    downloadVideoStepExec input info =
      (.ok { videoFileName := none, videoId := input.videoId, «exists» := true,
             videoRecord := input.videoRecord, keywords := input.keywords }, false) := by
  simp [downloadVideoStepExec, h]

/-- Witness for C3 at a concrete cached input. -/
theorem downloadVideoStep_skips_when_exists_witness :
    downloadVideoStepExec
        ⟨"abc123", true, some ⟨some "Hello world", some "transcription/old_transcript.txt"⟩, none⟩
        infoWithTie =
      (.ok ⟨none, "abc123", true,
            some ⟨some "Hello world", some "transcription/old_transcript.txt"⟩, none⟩, false) :=
  downloadVideoStep_skips_when_exists _ _ rfl

/-- C7: when the cache path is not taken (`exists` false, or no prior
record) and `videoFileName` is null, the Transcription Stage fails with
the missing-input-file error without contacting the transcription
provider. -/
theorem getTranscriptStep_requires_input_file (input : DownloadOutput) (dg : Option String)
    (h : input.exists = false ∨ input.videoRecord = none)
    (hf : input.videoFileName = none) :
    getTranscriptStepExec input dg = (.error .missingInputFile, false) := by
  obtain ⟨vfn, vid, ex, vrec, kw⟩ := input
  simp only at h hf
  subst hf
  rcases h with rfl | rfl
  · rfl
  · cases ex <;> rfl

/-- Witness for C7 at a concrete fresh input with no file path. -/
theorem getTranscriptStep_requires_input_file_witness :
    getTranscriptStepExec ⟨none, "fresh1", false, none, none⟩ (some "text") =
      (.error .missingInputFile, false) :=
  getTranscriptStep_requires_input_file _ _ (Or.inl rfl) rfl

/-- C9: with `exists = true` but no prior record, the acquisition stage
skips the download (`videoFileName = null`) and the transcription stage
then fails with the missing-input-file error; neither the streaming
provider nor the transcription provider is invoked. -/
theorem pipeline_exists_without_record_fails (input : DownloadInput) (info : VideoInfo)
    (dg : Option String) (h : input.exists = true) (hr : input.videoRecord = none) :
    downloadAndTranscribe input info dg = (.error .missingInputFile, false, false) := by
  obtain ⟨vid, ex, vrec, kw⟩ := input
  simp only at h hr
  subst h
  subst hr
  rfl

/-- Witness for C9 at a concrete input. -/
theorem pipeline_exists_without_record_fails_witness :
    downloadAndTranscribe ⟨"ghost42", true, none, some ["kw"]⟩ infoWithTie (some "text") =
      (.error .missingInputFile, false, false) :=
  pipeline_exists_without_record_fails _ _ _ rfl rfl

/-- C4 counterexample: a cache-path input whose prior record holds a
whitespace-only transcript. The claim says the stage returns the prior
transcript verbatim for every `exists = true` input with a non-null
record; here it instead fails with the empty-transcript error. -/
theorem getTranscriptStep_cache_whitespace_fails :
    getTranscriptStepExec cachedWhitespaceInput none =
      (.error (.emptyTranscript "xyz789"), false)
    ∧ ∀ out c, getTranscriptStepExec cachedWhitespaceInput none ≠ (.ok out, c) := by
  have h1 : getTranscriptStepExec cachedWhitespaceInput none =
      (.error (.emptyTranscript "xyz789"), false) := rfl
  refine ⟨h1, ?_⟩
  intro out c hne
  rw [h1] at hne
  simp at hne

/-- C4 (amended): on every cache-path input whose prior record carries a
transcript that is non-empty after trimming, the stage returns that
transcript verbatim, the prior transcript-file path (the empty string
when the record lacks one), `videoFileDeleted = true`, and never
invokes the transcription provider. -/
theorem getTranscriptStep_cache_path (input : DownloadOutput) (record : VideoRecord)
    (t : String) (dg : Option String)
    (hex : input.exists = true) (hrec : input.videoRecord = some record)
    (ht : record.fullTranscript = some t) (hne : (jsTrim t).length ≠ 0) :
    getTranscriptStepExec input dg =
      (.ok { transcript := t, transcriptFileName := record.transcriptFileName.getD "",
             videoFileDeleted := true, videoId := input.videoId }, false) := by
  obtain ⟨vfn, vid, ex, vrec, kw⟩ := input
  simp only at hex hrec ⊢
  subst hex
  subst hrec
  simp [getTranscriptStepExec, finishTranscript, ht, hne]

/-- Witness for the amended C4 at a concrete cached input. -/
theorem getTranscriptStep_cache_path_witness :
    getTranscriptStepExec
        ⟨none, "xyz789", true, some ⟨some "Hello world", some "transcription/old_transcript.txt"⟩, none⟩
        none =
      (.ok ⟨"Hello world", "transcription/old_transcript.txt", true, "xyz789"⟩, false) :=
  getTranscriptStep_cache_path _ _ _ _ rfl rfl rfl (by decide)

/-- Every success of `getTranscriptStepExec` carries a transcript that
is non-empty after trimming, whichever path produced it. -/
theorem getTranscriptStepExec_ok_trim {input : DownloadOutput} {dg : Option String}
    {out : TranscriptOutput} {c : Bool}
    (h : getTranscriptStepExec input dg = (.ok out, c)) :
    0 < (jsTrim out.transcript).length := by
  obtain ⟨vfn, vid, ex, vrec, kw⟩ := input
  unfold getTranscriptStepExec at h
  cases ex <;> cases vrec <;> cases vfn <;> cases dg <;>
    first
    | exact finishTranscript_ok (congrArg Prod.fst h)
    | (simp [getTranscript] at h; exact finishTranscript_ok h.1)
    | simp [getTranscript] at h

/-- C2: every transcript accepted by the transcription stage is
non-empty after trimming; a failing transcription stage short-circuits
the pipeline so the extraction stage is never invoked; and on either
path an empty or whitespace-only candidate transcript makes the stage
fail with the empty-transcript error. -/
theorem transcript_nonempty_guard (input : DownloadOutput) (dg : Option String)
    (modelResponse : VslScript) :
    (∀ out c, getTranscriptStepExec input dg = (.ok out, c) →
        0 < (jsTrim out.transcript).length)
    ∧ (∀ e c, getTranscriptStepExec input dg = (.error e, c) →
        transcribeAndExtract input dg modelResponse = (.error e, c, false))
    ∧ (∀ record, input.exists = true → input.videoRecord = some record →
        (jsTrim (record.fullTranscript.getD "")).length = 0 →
        getTranscriptStepExec input dg = (.error (.emptyTranscript input.videoId), false))
    ∧ (∀ vf t, (input.exists = false ∨ input.videoRecord = none) →
        input.videoFileName = some vf → dg = some t → (jsTrim t).length = 0 →
        getTranscriptStepExec input dg = (.error (.emptyTranscript input.videoId), true)) := by
  refine ⟨fun out c h => getTranscriptStepExec_ok_trim h, ?_, ?_, ?_⟩
  · intro e c h
    simp only [transcribeAndExtract, h]
  · intro record hex hrec hempty
    obtain ⟨vfn, vid, ex, vrec, kw⟩ := input
    simp only at hex hrec ⊢
    subst hex
    subst hrec
    cases htr : record.fullTranscript with
    | none => simp [getTranscriptStepExec, finishTranscript, htr]
    | some t =>
      rw [htr] at hempty
      simp only [Option.getD_some] at hempty
      simp [getTranscriptStepExec, finishTranscript, htr, hempty]
  · intro vf t hor hvf hdg htrim
    obtain ⟨vfn, vid, ex, vrec, kw⟩ := input
    simp only at hor hvf ⊢
    subst hvf
    subst hdg
    rcases hor with rfl | rfl
    · simp [getTranscriptStepExec, getTranscript, finishTranscript, htrim]
    · cases ex <;> simp [getTranscriptStepExec, getTranscript, finishTranscript, htrim]

/-- Witness for C2: the empty-transcript guard fires at a concrete
cached input with an empty prior transcript. -/
theorem transcript_nonempty_guard_witness :
    getTranscriptStepExec cachedEmptyInput none =
      (.error (.emptyTranscript "emptyvid"), false) :=
  (transcript_nonempty_guard cachedEmptyInput none conformingScript).2.2.1
    ⟨some "", some "transcription/old_transcript.txt"⟩ rfl rfl (by decide)

/-- C8: the analysis file path is a pure function of the video id, so
persisting twice for the same video id writes the same path both times
and leaves a single surviving file holding the second write's content
(overwrite semantics): the doubly-written store equals the store after
the second write alone, the path reads back the second artifact, and
from a store with no prior file exactly one file is added. -/
theorem saveVSL_idempotent_overwrite (in1 in2 : ExtractOutput) (now1 now2 : String)
    (fs : AnalysisFS) (h : in1.videoId = in2.videoId) :
    (saveVSLStepExec in1 now1 fs).2.vslFileName = vslAnalysisPath in1.videoId
    ∧ (saveVSLStepExec in2 now2 (saveVSLStepExec in1 now1 fs).1).1
        = (saveVSLStepExec in2 now2 fs).1
    ∧ readFile (saveVSLStepExec in2 now2 (saveVSLStepExec in1 now1 fs).1).1
        (vslAnalysisPath in2.videoId) = some (buildVslAnalysis in2 now2)
    ∧ (readFile fs (vslAnalysisPath in1.videoId) = none →
        (saveVSLStepExec in2 now2 (saveVSLStepExec in1 now1 fs).1).1
          = fs ++ [(vslAnalysisPath in2.videoId, buildVslAnalysis in2 now2)]) := by
  refine ⟨rfl, ?_, ?_, ?_⟩
  · show writeFile (writeFile fs (vslAnalysisPath in1.videoId) (buildVslAnalysis in1 now1))
        (vslAnalysisPath in2.videoId) (buildVslAnalysis in2 now2)
      = writeFile fs (vslAnalysisPath in2.videoId) (buildVslAnalysis in2 now2)
    rw [h]
    exact writeFile_writeFile fs _ _ _
  · show readFile
        (writeFile (writeFile fs (vslAnalysisPath in1.videoId) (buildVslAnalysis in1 now1))
          (vslAnalysisPath in2.videoId) (buildVslAnalysis in2 now2))
        (vslAnalysisPath in2.videoId) = some (buildVslAnalysis in2 now2)
    exact readFile_writeFile _ _ _
  · intro hnone
    show writeFile (writeFile fs (vslAnalysisPath in1.videoId) (buildVslAnalysis in1 now1))
        (vslAnalysisPath in2.videoId) (buildVslAnalysis in2 now2)
      = fs ++ [(vslAnalysisPath in2.videoId, buildVslAnalysis in2 now2)]
    rw [h] at hnone ⊢
    rw [writeFile_writeFile]
    exact writeFile_of_readFile_none fs _ _ hnone

/-- Witness for C8: two persists of the same video id from an empty
store leave exactly the second artifact at the derived path. -/
theorem saveVSL_idempotent_overwrite_witness :
    (saveVSLStepExec summaryExampleInput "2025-02-02T00:00:00.000Z"
        (saveVSLStepExec summaryExampleInput "2025-01-01T00:00:00.000Z" []).1).1
      = [] ++ [(vslAnalysisPath "abc123",
          buildVslAnalysis summaryExampleInput "2025-02-02T00:00:00.000Z")] :=
  (saveVSL_idempotent_overwrite summaryExampleInput summaryExampleInput
      "2025-01-01T00:00:00.000Z" "2025-02-02T00:00:00.000Z" [] rfl).2.2.2 rfl

/-- C5: on sections with purposes `[hook, hook, call_to_action]` and
tones `[urgent, urgent, reassuring]`, the persisted statistics are the
frequency counts `{hook: 2, call_to_action: 1}` and
`{urgent: 2, reassuring: 1}` in first-occurrence order, and the
summary's dominant tones (top-3 by descending frequency, stable
tie-break) are exactly `[urgent, reassuring]`. -/
theorem saveVSL_summary_example :
    (buildVslAnalysis summaryExampleInput "2025-01-01T00:00:00.000Z").statistics.purposeBreakdown
        = [("hook", 2), ("call_to_action", 1)]
    ∧ (buildVslAnalysis summaryExampleInput "2025-01-01T00:00:00.000Z").statistics.toneBreakdown
        = [("urgent", 2), ("reassuring", 1)]
    ∧ (saveVSLStepExec summaryExampleInput "2025-01-01T00:00:00.000Z" []).2.summary.dominantTones
        = ["urgent", "reassuring"]
    ∧ (saveVSLStepExec summaryExampleInput "2025-01-01T00:00:00.000Z" []).2.summary.totalSections
        = 3 :=
  ⟨rfl, rfl, rfl, rfl⟩

/-- C1 counterexample: `vslScriptSchema` accepts a response whose
`effectiveness.overallRating` is `7.5`, not an integer —
`z.number().min(1).max(10)` constrains only the range, so the claim
that every accepted rating is an integer is false. -/
theorem vslSchema_accepts_noninteger_rating :
    validVslScript scriptWithHalfRating = true
    ∧ ∀ n : ℤ, (n : ℚ) ≠ scriptWithHalfRating.effectiveness.overallRating := by
  constructor
  · simp [validVslScript, validSection, scriptWithHalfRating, purposeValues, toneValues]
    norm_num
  · intro n hn
    have hd := congrArg Rat.den hn
    rw [Rat.den_intCast] at hd
    norm_num [scriptWithHalfRating] at hd

/-- C1 (amended): the Structured-Extraction Stage accepts exactly the
responses whose sections all draw `purpose` from the 11 enumerated
values and `tone` from the 10 enumerated values and whose
`effectiveness.overallRating` is a number in the closed range `[1, 10]`
(not necessarily an integer); a violating response is rejected with the
schema-validation error, and an accepted one is attached to the
envelope unchanged, never coerced. -/
theorem vslSchema_enforced (v : VslScript) :
    (validVslScript v = true ↔
      ((∀ s ∈ v.sections, s.purpose ∈ purposeValues ∧ s.tone ∈ toneValues)
        ∧ 1 ≤ v.effectiveness.overallRating ∧ v.effectiveness.overallRating ≤ 10))
    ∧ (∀ input, validVslScript v = false →
        extractVSLStepExec input v = .error .schemaValidationError)
    ∧ (∀ input, validVslScript v = true →
        extractVSLStepExec input v =
          .ok ⟨input.transcript, input.transcriptFileName, input.videoFileDeleted,
               input.videoId, v⟩) := by
  refine ⟨?_, ?_, ?_⟩
  · constructor
    · intro hv
      simp only [validVslScript, Bool.and_eq_true, List.all_eq_true,
        decide_eq_true_eq] at hv
      refine ⟨fun s hs => ?_, hv.1.2, hv.2⟩
      have := hv.1.1 s hs
      simp only [validSection, Bool.and_eq_true] at this
      exact ⟨List.mem_of_elem_eq_true this.1, List.mem_of_elem_eq_true this.2⟩
    · intro hv
      simp only [validVslScript, Bool.and_eq_true, List.all_eq_true, decide_eq_true_eq]
      refine ⟨⟨fun s hs => ?_, hv.2.1⟩, hv.2.2⟩
      simp only [validSection, Bool.and_eq_true]
      exact ⟨List.elem_eq_true_of_mem (hv.1 s hs).1,
             List.elem_eq_true_of_mem (hv.1 s hs).2⟩
  · intro input hv
    simp [extractVSLStepExec, hv]
  · intro input hv
    simp [extractVSLStepExec, hv]

/-- Witness for the amended C1: a conforming response passes through
the extraction stage unchanged. -/
theorem vslSchema_enforced_witness :
    extractVSLStepExec ⟨"Hello world", "transcription/a_transcript.txt", true, "abc123"⟩
        conformingScript =
      .ok ⟨"Hello world", "transcription/a_transcript.txt", true, "abc123",
           conformingScript⟩ :=
  (vslSchema_enforced conformingScript).2.2 _ (by decide)

/-- C6: on the fresh path the acquisition filters the provider's
encodings to those with audio and without video; when that set is empty
it fails with the no-audio error, and otherwise the selected candidate
is the first audio-only encoding (in provider order) attaining the
maximal effective bitrate, a missing bitrate counting as `0` (lowest),
and the download succeeds with the file name derived from it. -/
theorem downloadVideo_selects_best (videoId : String) (info : VideoInfo) :
    (audioOnlyFormats info.formats = [] →
      downloadVideo videoId info = .error .noAudioAvailable)
    ∧ bestAudioFormat (audioOnlyFormats info.formats)
        = (audioOnlyFormats info.formats).find?
            (fun f => effBitrate f == maxKeyOf effBitrate (audioOnlyFormats info.formats))
    ∧ (audioOnlyFormats info.formats ≠ [] →
        ∃ best, bestAudioFormat (audioOnlyFormats info.formats) = some best
          ∧ downloadVideo videoId info =
              .ok ⟨pathJoin "./video/"
                    (sanitizeTitle info.title ++ "_" ++ videoId ++ "."
                      ++ best.container.getD "webm")⟩) := by
  refine ⟨?_, sortDescBy_head?_eq_find?_max effBitrate _, ?_⟩
  · intro h
    simp [downloadVideo, h]
  · intro h
    have hne : sortDescBy effBitrate (audioOnlyFormats info.formats) ≠ [] :=
      fun hh => h (sortDescBy_eq_nil effBitrate hh)
    obtain ⟨best, rest, hbr⟩ :
        ∃ b r, sortDescBy effBitrate (audioOnlyFormats info.formats) = b :: r := by
      cases hs : sortDescBy effBitrate (audioOnlyFormats info.formats) with
      | nil => exact absurd hs hne
      | cons b r => exact ⟨b, r, rfl⟩
    have hempty : (audioOnlyFormats info.formats).isEmpty = false := by
      simpa [List.isEmpty_iff] using h
    refine ⟨best, ?_, ?_⟩
    · simp [bestAudioFormat, hbr]
    · simp [downloadVideo, hempty, bestAudioFormat, hbr]

/-- Witness for C6: a provider response with no audio-only encoding
fails, and one with a bitrate tie resolves to the characterized
first-of-maximal candidate. -/
theorem downloadVideo_selects_best_witness :
    downloadVideo "noaud" infoNoAudio = .error .noAudioAvailable
    ∧ bestAudioFormat (audioOnlyFormats infoWithTie.formats)
        = (audioOnlyFormats infoWithTie.formats).find?
            (fun f => effBitrate f == maxKeyOf effBitrate (audioOnlyFormats infoWithTie.formats)) :=
  ⟨(downloadVideo_selects_best "noaud" infoNoAudio).1 rfl,
   (downloadVideo_selects_best "tie" infoWithTie).2.1⟩

/-- C10: in every persisted artifact the purpose counts and the tone
counts each sum to the number of sections, every recorded key occurs in
the sections with a strictly positive count, and the summary's
`mainPurposes` contains exactly the distinct purposes occurring in the
sections. -/
theorem saveVSL_statistics_sound (input : ExtractOutput) (now : String) (fs : AnalysisFS) :
    ((buildVslAnalysis input now).statistics.purposeBreakdown.map Prod.snd).sum
        = input.vslScript.sections.length
    ∧ ((buildVslAnalysis input now).statistics.toneBreakdown.map Prod.snd).sum
        = input.vslScript.sections.length
    ∧ (∀ kc ∈ (buildVslAnalysis input now).statistics.purposeBreakdown,
        0 < kc.2 ∧ kc.1 ∈ input.vslScript.sections.map (·.purpose))
    ∧ (∀ kc ∈ (buildVslAnalysis input now).statistics.toneBreakdown,
        0 < kc.2 ∧ kc.1 ∈ input.vslScript.sections.map (·.tone))
    ∧ (∀ p, p ∈ (saveVSLStepExec input now fs).2.summary.mainPurposes ↔
        p ∈ input.vslScript.sections.map (·.purpose)) := by
  refine ⟨?_, ?_, ?_, ?_, ?_⟩
  · simpa [buildVslAnalysis]
      using breakdownOf_sum (input.vslScript.sections.map (·.purpose))
  · simpa [buildVslAnalysis]
      using breakdownOf_sum (input.vslScript.sections.map (·.tone))
  · intro kc hkc
    have hkc' : kc ∈ breakdownOf (input.vslScript.sections.map (·.purpose)) := by
      simpa [buildVslAnalysis] using hkc
    refine ⟨breakdownOf_pos _ kc hkc', ?_⟩
    have h2 := List.mem_map_of_mem Prod.fst hkc'
    rwa [mem_keys_breakdownOf] at h2
  · intro kc hkc
    have hkc' : kc ∈ breakdownOf (input.vslScript.sections.map (·.tone)) := by
      simpa [buildVslAnalysis] using hkc
    refine ⟨breakdownOf_pos _ kc hkc', ?_⟩
    have h2 := List.mem_map_of_mem Prod.fst hkc'
    rwa [mem_keys_breakdownOf] at h2
  · intro p
    show p ∈ (breakdownOf (input.vslScript.sections.map (·.purpose))).map Prod.fst ↔ _
    exact mem_keys_breakdownOf _ p

/-- Witness for C10 at a concrete one-section artifact. -/
theorem saveVSL_statistics_sound_witness :
    0 < (("hook", 1) : String × Nat).2
    ∧ (("hook", 1) : String × Nat).1 ∈ singleSectionInput.vslScript.sections.map (·.purpose) :=
  (saveVSL_statistics_sound singleSectionInput "2025-01-01T00:00:00.000Z" []).2.2.1
    ("hook", 1) (by decide)

end VslWorkflow
